import Mathlib

/-!
Shallow embedding of the MagicSpin360 orchestration pipeline
(`src/services/gemini/generation.ts`, `prompts.ts`, `utils.ts`,
`src/utils/dataUrl.ts`) and proofs of the specification claims about it.

Model calls are embedded as environment parameters: the outcome of the
master-prompt analysis call and, for each loop index, the outcome of the
corresponding image-model call (an exception message, or the response's
content parts).  The embedding returns a trace recording the progress
events delivered to `onProgress`, the requests issued to the model, and
the final result (resolved value or rejection message).
-/

namespace MagicSpin

/-- Progress payload passed to the `onProgress` callback (`LoadingProgress` in the
repository's `types`). -/
structure LoadingProgress where
  current : Nat
  total : Nat
  message : String
  deriving DecidableEq

/-- One content part of a model request or response: inline base64 image data with
a MIME type, or plain text (the shape scanned by `extractInlineData`). -/
inductive Part where
  | inlineData (data mimeType : String)
  | text (s : String)
  deriving DecidableEq

/-- Embeds `extractInlineData` (generation.ts): scan the response's parts for the
first part carrying inline data and return its data and MIME type. -/
def extractInlineData : List Part → Option (String × String)
  | [] => none
  | Part.inlineData d m :: _ => some (d, m)
  | Part.text _ :: rest => extractInlineData rest

/-- Embeds `inlineDataToDataUrl` (generation.ts). -/
def inlineDataToDataUrl (data mimeType : String) : String :=
  "data:" ++ mimeType ++ ";base64," ++ data

/-- Embeds `Math.round((i + 1) * (360 / numFrames))` from the frame loop of
`generate360Images`, over exact rationals.  For the configured frame counts
(4..12) no value falls on a rounding boundary, so the JavaScript double
computation agrees with the exact rational one. -/
def targetAngle (numFrames i : Nat) : Int :=
  round (((i : ℚ) + 1) * (360 / (numFrames : ℚ)))

/-- Closed form of `targetAngle` in integer arithmetic. -/
def targetAngleNat (numFrames i : Nat) : Nat :=
  ((i + 1) * 720 + numFrames) / (2 * numFrames)

/-- Message of the initial progress event of `generate360Images`. -/
def analysisStartMsg : String := "Analyzing image & requirements..."

/-- Message of the progress event emitted after the analysis step succeeds. -/
def analysisDoneMsg : String := "Analysis complete. Generating frames..."

/-- Message of the progress event emitted before generating a frame. -/
def generatingFrameMsg (frameNumber numFrames : Nat) (angle : Int) : String :=
  "Generating frame " ++ toString frameNumber ++ " of " ++ toString numFrames ++
    " at " ++ toString angle ++ "°..."

/-- Message of the progress event emitted after a frame succeeds. -/
def frameDoneMsg (frameNumber : Nat) : String :=
  "Frame " ++ toString frameNumber ++ " complete."

/-- Message thrown by `ensureImage` when a frame response carries no image part. -/
def noImageMsg (frameNumber : Nat) : String :=
  "Frame " ++ toString frameNumber ++ " generation failed: No image data returned."

/-- Message of the error rejecting the run when a frame fails
(the `catch` block of the frame loop). -/
def frameFailMsg (frameNumber : Nat) (angle : Int) (reason : String) : String :=
  "Failed to generate frame " ++ toString frameNumber ++ " at " ++ toString angle ++
    " degrees. Reason: " ++ reason

/-- Embeds the frame prompt template of `generate360Images`: the master prompt
followed by the rotation task naming the previous and target angles. -/
def framePromptStr (masterPrompt : String) (previousAngle targetAngleDeg : Int) : String :=
  masterPrompt ++
    "\n\n**ROTATION TASK:** The provided image shows the subject at approximately a " ++
    toString previousAngle ++
    "-degree horizontal angle. Your task is to generate the next frame, rotating the subject to a " ++
    toString targetAngleDeg ++
    "-degree horizontal view. Maintain perfect consistency in style, lighting, scale, and background as described in the master prompt above. The rotation should be smooth and incremental. The subject must remain perfectly centered."

/-- Embeds JavaScript `String.prototype.trim`: strip leading and trailing
whitespace characters. -/
def jsTrim (s : String) : String :=
  String.mk (((s.toList.dropWhile Char.isWhitespace).reverse.dropWhile
    Char.isWhitespace).reverse)

/-- Embeds the result handling of `createConsistentPrompt` (prompts.ts): the
analysis call either throws (error propagates) or yields an optional text field,
and the function returns `response.text?.trim() ?? ""` — the trimmed text, or the
empty string when the field is absent.  Note it never throws on empty text. -/
def createConsistentPrompt (analysisCall : Except String (Option String)) :
    Except String String :=
  match analysisCall with
  | Except.error e => Except.error e
  | Except.ok t => Except.ok ((t.map jsTrim).getD "")

deriving instance DecidableEq for Except

/-- Observable trace of one `generate360Images` run: progress events delivered to
`onProgress` in order, the content parts of each frame-generation request in
order, and the promise outcome (data URLs of the frames, or rejection message). -/
structure GenTrace where
  progress : List LoadingProgress
  frameRequests : List (List Part)
  result : Except String (List String)
  deriving DecidableEq

/-- Embeds the `for` loop of `generate360Images`.  `i` is the loop index,
`remaining` the number of iterations left (`numFrames - i`), and
`prevData`/`prevMime`/`prevAngle` the threaded `previousImagePart` and
`previousAngle` values.  `fr i` is the outcome of the model call for frame `i`:
a thrown message or the response's parts. -/
def frameLoop (fr : Nat → Except String (List Part)) (numFrames : Nat)
    (masterPrompt : String) :
    Nat → Nat → String → String → Int →
      List LoadingProgress × List (List Part) × Except String (List String)
  | _, 0, _, _, _ => ([], [], Except.ok [])
  | i, r + 1, prevData, prevMime, prevAngle =>
    let t := targetAngle numFrames i
    let ev1 : LoadingProgress :=
      ⟨i + 1, numFrames + 1, generatingFrameMsg (i + 1) numFrames t⟩
    let req : List Part :=
      [Part.inlineData prevData prevMime,
       Part.text (framePromptStr masterPrompt prevAngle t)]
    match fr i with
    | Except.error e => ([ev1], [req], Except.error (frameFailMsg (i + 1) t e))
    | Except.ok parts =>
      match extractInlineData parts with
      | none => ([ev1], [req], Except.error (frameFailMsg (i + 1) t (noImageMsg (i + 1))))
      | some (d, m) =>
        let ev2 : LoadingProgress := ⟨i + 2, numFrames + 1, frameDoneMsg (i + 1)⟩
        let rest := frameLoop fr numFrames masterPrompt (i + 1) r d m t
        (ev1 :: ev2 :: rest.1, req :: rest.2.1,
          rest.2.2.map (fun l => inlineDataToDataUrl d m :: l))

/-- Embeds `generate360Images` (generation.ts).  `origData`/`origMime` are the
inline-data part of the uploaded file (`fileToInlineDataPart`),
`analysisCall` the outcome of the analysis model call inside
`createConsistentPrompt`, and `fr` the outcomes of the per-frame calls. -/
def generate360Images (origData origMime : String) (numFrames : Nat)
    (analysisCall : Except String (Option String))
    (fr : Nat → Except String (List Part)) : GenTrace :=
  let totalSteps := numFrames + 1
  let ev0 : LoadingProgress := ⟨0, totalSteps, analysisStartMsg⟩
  match createConsistentPrompt analysisCall with
  | Except.error e => ⟨[ev0], [], Except.error e⟩
  | Except.ok masterPrompt =>
    let ev1 : LoadingProgress := ⟨1, totalSteps, analysisDoneMsg⟩
    let rest := frameLoop fr numFrames masterPrompt 0 numFrames origData origMime 0
    ⟨ev0 :: ev1 :: rest.1, rest.2.1, rest.2.2⟩

/-- Value of the variable threaded through the frame loop before iteration `i`:
its initial value for `i = 0`, and `f (i - 1)` afterwards. -/
def chain {α : Type} (init : α) (f : Nat → α) : Nat → α
  | 0 => init
  | i + 1 => f i

/-- Configured lower bound on the frame count (`FRAME_COUNT_LIMITS.min`,
constants/controls.ts). -/
def frameCountMin : Nat := 4

/-- Configured upper bound on the frame count (`FRAME_COUNT_LIMITS.max`,
constants/controls.ts). -/
def frameCountMax : Nat := 12

/-- Embeds JavaScript `String.prototype.split(",")`: split on every comma;
the empty string yields `[""]`, and trailing separators yield empty segments. -/
def splitOnComma : List Char → List (List Char)
  | [] => [[]]
  | c :: cs =>
    if c = ',' then [] :: splitOnComma cs
    else
      match splitOnComma cs with
      | [] => [[c]]
      | h :: t => (c :: h) :: t

/-- Characters the `.` of a JavaScript regular expression (without the `s` flag)
does not match: LF, CR, LINE SEPARATOR, PARAGRAPH SEPARATOR. -/
def isLineTerminator (c : Char) : Bool :=
  c = Char.ofNat 10 || c = Char.ofNat 13 || c = Char.ofNat 0x2028 || c = Char.ofNat 0x2029

/-- Lazy tail of the regular expression `:(.*?);` once its leading `:` has been
consumed: the capture runs to the first `;`, and fails if a line terminator (which
`.` cannot match) appears first or no `;` follows. -/
def captureAfterColon : List Char → Option (List Char)
  | [] => none
  | c :: cs =>
    if c = ';' then some []
    else if isLineTerminator c then none
    else (captureAfterColon cs).map (fun l => c :: l)

/-- Embeds `header.match(/:(.*?);/)`: the match starts at the leftmost `:` from
which the lazy tail succeeds, and the result is the first capture group. -/
def execMimeRegex : List Char → Option (List Char)
  | [] => none
  | c :: cs =>
    if c = ':' then
      match captureAfterColon cs with
      | some cap => some cap
      | none => execMimeRegex cs
    else execMimeRegex cs

/-- Result shape of `parseDataUrl` (`ParsedDataUrl` in src/utils/dataUrl.ts). -/
structure ParsedDataUrl where
  base64Data : String
  mimeType : String
  deriving DecidableEq

/-- Embeds `parseDataUrl` (src/utils/dataUrl.ts): split the string on every
comma, take the first segment as header and the second as payload, match the
header against `:(.*?);`, and throw (`none`) when the match fails or the payload
segment is missing or empty (both are falsy in the `!base64Data` test). -/
def parseDataUrl (dataUrl : String) : Option ParsedDataUrl :=
  let parts := splitOnComma dataUrl.toList
  let header := parts.headD []
  let base64Data := (parts.drop 1).headD []
  match execMimeRegex header with
  | none => none
  | some mime =>
    if base64Data = [] then none
    else some ⟨String.mk base64Data, String.mk mime⟩

/-- The 64 characters of the standard base64 alphabet, in value order. -/
def base64Alphabet : List Char :=
  "ABCDEFGHIJKLMNOPQRSTUVWXYZabcdefghijklmnopqrstuvwxyz0123456789+/".toList

/-- Character encoding a 6-bit value. -/
def b64Char (i : Nat) : Char := base64Alphabet.getD i 'A'

/-- Value of a base64 alphabet character, `none` for any other character. -/
def b64Index (c : Char) : Option Nat := base64Alphabet.indexOf? c

/-- Models the platform base64 encoder (the counterpart of `atob`, as used by
`canvas.toDataURL` / `FileReader.readAsDataURL` / the model responses that
produce the base64 payloads this pipeline consumes): standard RFC 4648 encoding
with `=` padding, three input bytes per four output characters. -/
def base64Encode : List Nat → List Char
  | [] => []
  | [b1] => [b64Char (b1 / 4), b64Char (b1 % 4 * 16), '=', '=']
  | [b1, b2] => [b64Char (b1 / 4), b64Char (b1 % 4 * 16 + b2 / 16), b64Char (b2 % 16 * 4), '=']
  | b1 :: b2 :: b3 :: rest =>
    b64Char (b1 / 4) :: b64Char (b1 % 4 * 16 + b2 / 16) ::
      b64Char (b2 % 16 * 4 + b3 / 64) :: b64Char (b3 % 64) :: base64Encode rest

/-- Padding-free base64 encoding (helper for reasoning about `base64Encode`
after its `=` padding has been stripped). -/
def b64UnpaddedEncode : List Nat → List Char
  | [] => []
  | [b1] => [b64Char (b1 / 4), b64Char (b1 % 4 * 16)]
  | [b1, b2] => [b64Char (b1 / 4), b64Char (b1 % 4 * 16 + b2 / 16), b64Char (b2 % 16 * 4)]
  | b1 :: b2 :: b3 :: rest =>
    b64Char (b1 / 4) :: b64Char (b1 % 4 * 16 + b2 / 16) ::
      b64Char (b2 % 16 * 4 + b3 / 64) :: b64Char (b3 % 64) :: b64UnpaddedEncode rest

/-- Six-bit values encoded by `b64UnpaddedEncode`. -/
def toSixBits : List Nat → List Nat
  | [] => []
  | [b1] => [b1 / 4, b1 % 4 * 16]
  | [b1, b2] => [b1 / 4, b1 % 4 * 16 + b2 / 16, b2 % 16 * 4]
  | b1 :: b2 :: b3 :: rest =>
    b1 / 4 :: (b1 % 4 * 16 + b2 / 16) :: (b2 % 16 * 4 + b3 / 64) :: b3 % 64 :: toSixBits rest

/-- Reassemble bytes from 6-bit values, four values per three bytes; a trailing
group of two or three values yields one or two bytes, the leftover bits being
discarded as in the WHATWG forgiving-base64 decoder behind `atob`. -/
def b64DecodeQuads : List Nat → List Nat
  | i1 :: i2 :: i3 :: i4 :: rest =>
    (i1 * 4 + i2 / 16) :: (i2 % 16 * 16 + i3 / 4) :: (i3 % 4 * 64 + i4) :: b64DecodeQuads rest
  | [i1, i2] => [i1 * 4 + i2 / 16]
  | [i1, i2, i3] => [i1 * 4 + i2 / 16, i2 % 16 * 16 + i3 / 4]
  | [_] => []
  | [] => []

/-- Drop one or two trailing `=` characters, given the reversed input. -/
def dropPadRev : List Char → List Char
  | [] => []
  | c :: rest =>
    if c = '=' then
      match rest with
      | [] => []
      | c2 :: rest2 => if c2 = '=' then rest2 else rest
    else c :: rest

/-- Remove up to two `=` padding characters from the end of a base64 string. -/
def stripBase64Padding (cs : List Char) : List Char :=
  (dropPadRev cs.reverse).reverse

/-- Look up every character's base64 value, failing on the first character
outside the alphabet. -/
def b64Values : List Char → Option (List Nat)
  | [] => some []
  | c :: cs =>
    match b64Index c, b64Values cs with
    | some v, some vs => some (v :: vs)
    | _, _ => none

/-- Models the platform `atob` (WHATWG forgiving-base64 decode, used by
`dataUrlToFile`), producing the byte values of the decoded binary string:
strip `=` padding when the length is a multiple of four, reject a leftover
length of one, reject characters outside the base64 alphabet, and reassemble
six-bit values into bytes. -/
def atobBytes (cs : List Char) : Option (List Nat) :=
  let stripped := if cs.length % 4 = 0 then stripBase64Padding cs else cs
  if stripped.length % 4 = 1 then none
  else (b64Values stripped).map b64DecodeQuads

/-- Binary file object (the `File` constructed by `dataUrlToFile`): byte
content, file name, and MIME type. -/
structure BinaryFile where
  bytes : List Nat
  name : String
  mimeType : String
  deriving DecidableEq

/-- Embeds `dataUrlToFile` (src/utils/dataUrl.ts): parse the data URL, decode
its base64 payload with `atob`, read the binary string's char codes into a byte
array, and wrap them as a file with the parsed MIME type. -/
def dataUrlToFile (dataUrl filename : String) : Option BinaryFile :=
  match parseDataUrl dataUrl with
  | none => none
  | some p =>
    match atobBytes p.base64Data.toList with
    | none => none
    | some bytes => some ⟨bytes, filename, p.mimeType⟩

/-- Spec-side encoder of the data-URL round trip (`toDataUrl(payload)`):
base64-encode the payload and wrap it as `data:<mime>;base64,<data>` exactly as
`inlineDataToDataUrl` does. -/
def toDataUrl (payload : List Nat) (mimeType : String) : String :=
  inlineDataToDataUrl (String.mk (base64Encode payload)) mimeType

/-- Message of the progress event emitted before interpolating pair `i`. -/
def interpolatingMsg (frameNumber totalSteps : Nat) : String :=
  "Interpolating frame " ++ toString frameNumber ++ " of " ++ toString totalSteps ++ "..."

/-- Message of the final progress event of `interpolateFrames`. -/
def interpolationDoneMsg : String := "Interpolation complete!"

/-- Fixed text part of every interpolation request. -/
def interpPromptText : String :=
  "You are an expert in video frame interpolation. Your task is to generate a single intermediate frame that smoothly transitions between the two provided images. Image 1 is the starting frame, and Image 2 is the ending frame. Create a new frame that represents the exact halfway point of the rotation between them. The subject's position, scale, lighting, and the background must be a perfect blend, creating a fluid motion. Do not introduce any new elements. Output only the image."

/-- Observable trace of one `interpolateFrames` run: progress events, requests
issued to the model, and the promise outcome. -/
structure InterpTrace where
  progress : List LoadingProgress
  calls : List (List Part)
  result : Except String (List String)
  deriving DecidableEq

/-- Body of the `try` block for pair `i` of `interpolateFrames`: parse both
frames (`dataUrlToInlineDataPart` throws on malformed input), issue the model
call, and extract the interpolated image if any.  Returns the requests issued
and the frames pushed after `frameA`; a thrown error reaches the `catch`, which
only logs, so both outcomes collapse to the same shape. -/
def interpAttempt (frameA frameB : String) (callResult : Except String (List Part)) :
    List (List Part) × List String :=
  match parseDataUrl frameA with
  | none => ([], [])
  | some a =>
    match parseDataUrl frameB with
    | none => ([], [])
    | some b =>
      let req : List Part :=
        [Part.inlineData a.base64Data a.mimeType,
         Part.inlineData b.base64Data b.mimeType,
         Part.text interpPromptText]
      match callResult with
      | Except.error _ => ([req], [])
      | Except.ok parts =>
        match extractInlineData parts with
        | none => ([req], [])
        | some p => ([req], [inlineDataToDataUrl p.1 p.2])

/-- Embeds the `for` loop of `interpolateFrames`: iteration `i` emits a progress
event, pushes `baseImages[i]`, and runs the guarded interpolation attempt
against `baseImages[(i+1) % M]`. -/
def interpLoop (ir : Nat → Except String (List Part)) (baseImages : List String) :
    Nat → Nat → List LoadingProgress × List (List Part) × List String
  | _, 0 => ([], [], [])
  | i, r + 1 =>
    let M := baseImages.length
    let ev : LoadingProgress := ⟨i, M, interpolatingMsg (i + 1) M⟩
    let frameA := baseImages.getD i ""
    let frameB := baseImages.getD ((i + 1) % M) ""
    let att := interpAttempt frameA frameB (ir i)
    let rest := interpLoop ir baseImages (i + 1) r
    (ev :: rest.1, att.1 ++ rest.2.1, frameA :: att.2 ++ rest.2.2)

/-- Embeds `interpolateFrames` (generation.ts): loop over all pairs, then emit
the completion event; every throw site sits inside the per-pair `try`, so the
promise always resolves with the accumulated list. -/
def interpolateFrames (baseImages : List String)
    (ir : Nat → Except String (List Part)) : InterpTrace :=
  let totalSteps := baseImages.length
  let rest := interpLoop ir baseImages 0 totalSteps
  ⟨rest.1 ++ [⟨totalSteps, totalSteps, interpolationDoneMsg⟩], rest.2.1, Except.ok rest.2.2⟩

/-- Requests issued while processing pair `i` of `interpolateFrames` (empty when
a parse failure prevents the model call). -/
def pairCalls (baseImages : List String) (ir : Nat → Except String (List Part))
    (i : Nat) : List (List Part) :=
  (interpAttempt (baseImages.getD i "")
    (baseImages.getD ((i + 1) % baseImages.length) "") (ir i)).1

/-- Frames inserted after `baseImages[i]` while processing pair `i` of
`interpolateFrames` (at most one). -/
def pairInserts (baseImages : List String) (ir : Nat → Except String (List Part))
    (i : Nat) : List String :=
  (interpAttempt (baseImages.getD i "")
    (baseImages.getD ((i + 1) % baseImages.length) "") (ir i)).2

/-- The interpolation call for pair `k` fails: it throws, or returns a response
without any inline image part. -/
def interpCallFails (ir : Nat → Except String (List Part)) (k : Nat) : Prop :=
  (∃ e, ir k = Except.error e) ∨ ∃ rs, ir k = Except.ok rs ∧ extractInlineData rs = none

/-- Modelled from the spec: the `ProgressEvent` shape declared in the data
model, whose `total` field is an integer strictly greater than zero. -/
def specProgressEventShape (e : LoadingProgress) : Prop := 0 < e.total

instance (e : LoadingProgress) : Decidable (specProgressEventShape e) :=
  inferInstanceAs (Decidable (0 < e.total))

/-- Spec-side reading of "lacking a comma separator" in the parse claim. -/
def specNoComma (s : String) : Prop := ',' ∉ s.toList

instance (s : String) : Decidable (specNoComma s) :=
  inferInstanceAs (Decidable (',' ∉ s.toList))

/-- Spec-side reading of the "header segment" of a data URL: everything before
the first comma. -/
def specHeader (s : String) : List Char := s.toList.takeWhile (fun c => c ≠ ',')

/-- Spec-side reading of "the payload segment after the first comma": everything
after the first comma. -/
def specPayloadAfterFirstComma (s : String) : List Char :=
  (s.toList.dropWhile (fun c => c ≠ ',')).drop 1

/-- The model call for frame `k` fails: either the call throws `reason`, or it
returns a response without any inline image part, in which case `ensureImage`
throws the no-image message. -/
def frameCallFails (fr : Nat → Except String (List Part)) (k : Nat) (reason : String) : Prop :=
  fr k = Except.error reason ∨
    ∃ ps, fr k = Except.ok ps ∧ extractInlineData ps = none ∧ reason = noImageMsg (k + 1)

theorem chain_zero {α : Type} (x : α) (f : Nat → α) : chain x f 0 = x := rfl

theorem chain_succ {α : Type} (x : α) (f : Nat → α) (k : Nat) : chain x f (k + 1) = f k := rfl

theorem chain_shift {α : Type} (x : α) (f : Nat → α) (i k : Nat) :
    chain x (fun j => f (i + j)) (k + 1) = chain (f i) (fun j => f (i + 1 + j)) k := by
  cases k with
  | zero => simp [chain]
  | succ k => simp only [chain]; exact congrArg f (by omega)

/-- Characterization of the frame loop when every remaining call succeeds:
`ps j` is the response of frame `j`, whose first inline part is `(d j, m j)`. -/
theorem frameLoop_ok_char (fr : Nat → Except String (List Part)) (n : Nat) (mp : String)
    (ps : Nat → List Part) (d m : Nat → String) :
    ∀ r i pd pm pa,
      (∀ j, i ≤ j → j < i + r →
          fr j = Except.ok (ps j) ∧ extractInlineData (ps j) = some (d j, m j)) →
      frameLoop fr n mp i r pd pm pa =
        ((List.range r).flatMap (fun k =>
            [⟨i + k + 1, n + 1, generatingFrameMsg (i + k + 1) n (targetAngle n (i + k))⟩,
             ⟨i + k + 2, n + 1, frameDoneMsg (i + k + 1)⟩]),
         (List.range r).map (fun k =>
            [Part.inlineData (chain pd (fun j => d (i + j)) k) (chain pm (fun j => m (i + j)) k),
             Part.text (framePromptStr mp (chain pa (fun j => targetAngle n (i + j)) k)
               (targetAngle n (i + k)))]),
         Except.ok ((List.range r).map (fun k => inlineDataToDataUrl (d (i + k)) (m (i + k))))) := by
  intro r
  induction r with
  | zero => intro i pd pm pa _; simp [frameLoop]
  | succ r ih =>
    intro i pd pm pa h
    have h0 := h i (Nat.le_refl i) (by omega)
    simp only [frameLoop, h0.1, h0.2]
    rw [ih (i + 1) (d i) (m i) (targetAngle n i)
      (fun j hj1 hj2 => h j (by omega) (by omega))]
    rw [List.range_succ_eq_map, List.flatMap_cons, List.flatMap_map,
      List.map_cons, List.map_map, List.map_cons, List.map_map]
    refine congrArg₂ _ ?_ (congrArg₂ _ ?_ ?_)
    · simp only [Nat.add_zero, List.cons_append, List.nil_append]
      refine congrArg _ (congrArg _ (List.flatMap_congr fun k _ => ?_))
      have e1 : i + (k + 1) + 1 = i + 1 + k + 1 := by omega
      have e2 : i + (k + 1) + 2 = i + 1 + k + 2 := by omega
      have e3 : i + (k + 1) = i + 1 + k := by omega
      simp only [Function.comp, Nat.succ_eq_add_one, e1, e2, e3]
    · refine congrArg₂ _ ?_ (List.map_congr_left fun k _ => ?_)
      · simp [chain_zero, Nat.add_zero]
      · simp only [Function.comp, Nat.succ_eq_add_one, chain_shift]
        have e3 : i + (k + 1) = i + 1 + k := by omega
        simp only [e3]
    · simp only [Nat.add_zero]
      have hmap : ∀ l : List String,
          Except.map (fun l2 => inlineDataToDataUrl (d i) (m i) :: l2)
            (Except.ok l : Except String (List String)) =
            Except.ok (inlineDataToDataUrl (d i) (m i) :: l) :=
        fun l => rfl
      rw [hmap]
      refine congrArg _ (congrArg₂ _ ?_ (List.map_congr_left fun k _ => ?_))
      · rfl
      · have e3 : i + (k + 1) = i + 1 + k := by omega
        simp only [Function.comp, Nat.succ_eq_add_one, e3]

/-- Characterization of a `generate360Images` run whose analysis call yields
text `t` and whose frame calls all succeed. -/
theorem generate360Images_ok_char (origData origMime : String) (n : Nat) (t : Option String)
    (fr : Nat → Except String (List Part)) (ps : Nat → List Part) (d m : Nat → String)
    (h : ∀ j, j < n → fr j = Except.ok (ps j) ∧ extractInlineData (ps j) = some (d j, m j)) :
    generate360Images origData origMime n (Except.ok t) fr =
      ⟨⟨0, n + 1, analysisStartMsg⟩ :: ⟨1, n + 1, analysisDoneMsg⟩ ::
          (List.range n).flatMap (fun k =>
            [⟨k + 1, n + 1, generatingFrameMsg (k + 1) n (targetAngle n k)⟩,
             ⟨k + 2, n + 1, frameDoneMsg (k + 1)⟩]),
        (List.range n).map (fun k =>
          [Part.inlineData (chain origData d k) (chain origMime m k),
           Part.text (framePromptStr ((t.map jsTrim).getD "")
             (chain 0 (targetAngle n) k) (targetAngle n k))]),
        Except.ok ((List.range n).map (fun k => inlineDataToDataUrl (d k) (m k)))⟩ := by
  simp only [generate360Images, createConsistentPrompt]
  rw [frameLoop_ok_char fr n _ ps d m n 0 origData origMime 0
    (fun j hj1 hj2 => h j (by omega))]
  simp only [Nat.zero_add]

/-- The frame loop rejects with the wrapped message of the first failing frame:
if frames `i..k-1` succeed and the call for frame `k` fails, the loop's result
is the error built by the `catch` block for frame `k`. -/
theorem frameLoop_fail_result (fr : Nat → Except String (List Part)) (n : Nat) (mp : String)
    (ps : Nat → List Part) (d m : Nat → String) :
    ∀ r i pd pm pa k reason, i ≤ k → k < i + r →
      (∀ j, i ≤ j → j < k →
          fr j = Except.ok (ps j) ∧ extractInlineData (ps j) = some (d j, m j)) →
      frameCallFails fr k reason →
      (frameLoop fr n mp i r pd pm pa).2.2 =
        Except.error (frameFailMsg (k + 1) (targetAngle n k) reason) := by
  intro r
  induction r with
  | zero => intro i pd pm pa k reason h1 h2 _ _; omega
  | succ r ih =>
    intro i pd pm pa k reason h1 h2 hsucc hfail
    by_cases hik : i = k
    · subst hik
      rcases hfail with he | ⟨psk, hok, hex, hr⟩
      · simp [frameLoop, he]
      · subst hr; simp [frameLoop, hok, hex]
    · have h0 := hsucc i (Nat.le_refl i) (by omega)
      simp only [frameLoop, h0.1, h0.2]
      have hr := ih (i + 1) (d i) (m i) (targetAngle n i) k reason (by omega) (by omega)
        (fun j hj1 hj2 => hsucc j (by omega) hj2) hfail
      simp [hr, Except.map]

/-- Rejection of the whole run at the first failing frame, from the top of
`generate360Images`. -/
theorem generate360Images_fail_result (origData origMime : String) (n : Nat)
    (t : Option String) (fr : Nat → Except String (List Part))
    (ps : Nat → List Part) (d m : Nat → String) (k : Nat) (reason : String)
    (hk : k < n)
    (hsucc : ∀ j, j < k →
        fr j = Except.ok (ps j) ∧ extractInlineData (ps j) = some (d j, m j))
    (hfail : frameCallFails fr k reason) :
    (generate360Images origData origMime n (Except.ok t) fr).result =
      Except.error (frameFailMsg (k + 1) (targetAngle n k) reason) := by
  simp only [generate360Images, createConsistentPrompt]
  exact frameLoop_fail_result fr n _ ps d m n 0 origData origMime 0 k reason
    (Nat.zero_le k) (by omega) (fun j hj1 hj2 => hsucc j hj2) hfail

/-- Closed integer form of the rounded target angle. -/
theorem targetAngle_eq_natFormula (n i : Nat) (hn : n ≠ 0) :
    targetAngle n i = (targetAngleNat n i : Int) := by
  unfold targetAngle targetAngleNat
  rw [round_eq]
  have hnq : (n : ℚ) ≠ 0 := Nat.cast_ne_zero.mpr hn
  have key : ((i : ℚ) + 1) * (360 / (n : ℚ)) + 1 / 2 =
      ((((i + 1) * 720 + n : Nat) : Int) : ℚ) / (((2 * n : Nat) : ℕ) : ℚ) := by
    push_cast
    field_simp
    ring
  rw [key, Rat.floor_intCast_div_natCast]
  rw [Int.ofNat_ediv]

/-- C1: for every frame count N within the configured bound 4..12, a run of
`generate360Images` whose analysis call and frame calls all succeed resolves
with exactly N images, and the target angle used for frame i — both in the
frame prompt and in the progress message announcing the frame — is
round((i+1) * 360/N) degrees. -/
theorem C1_frame_count_and_angles (origData origMime : String) (n : Nat)
    (t : Option String) (fr : Nat → Except String (List Part))
    (ps : Nat → List Part) (d m : Nat → String)
    (hmin : frameCountMin ≤ n) (hmax : n ≤ frameCountMax)
    (h : ∀ j, j < n →
        fr j = Except.ok (ps j) ∧ extractInlineData (ps j) = some (d j, m j)) :
    ∃ imgs,
      (generate360Images origData origMime n (Except.ok t) fr).result = Except.ok imgs ∧
      imgs.length = n ∧
      (generate360Images origData origMime n (Except.ok t) fr).progress =
        ⟨0, n + 1, analysisStartMsg⟩ :: ⟨1, n + 1, analysisDoneMsg⟩ ::
          (List.range n).flatMap (fun i =>
            [⟨i + 1, n + 1,
                generatingFrameMsg (i + 1) n (round ((((i : ℚ) + 1) * 360) / (n : ℚ)))⟩,
             ⟨i + 2, n + 1, frameDoneMsg (i + 1)⟩]) ∧
      (generate360Images origData origMime n (Except.ok t) fr).frameRequests =
        (List.range n).map (fun i =>
          [Part.inlineData (chain origData d i) (chain origMime m i),
           Part.text (framePromptStr ((t.map jsTrim).getD "")
             (chain 0 (targetAngle n) i)
             (round ((((i : ℚ) + 1) * 360) / (n : ℚ))))]) := by
  rw [generate360Images_ok_char origData origMime n t fr ps d m h]
  refine ⟨_, rfl, by simp, ?_, ?_⟩
  · simp only [targetAngle, mul_div_assoc]
  · simp only [targetAngle, mul_div_assoc]

/-- Witness for C1: N = 7 with an all-succeeding environment, together with the
precomputed angle table for N = 7. -/
theorem C1_frame_count_and_angles_witness :
    frameCountMin ≤ 7 ∧ 7 ≤ frameCountMax ∧
    (∀ j, j < 7 →
        (fun _ : Nat =>
            (Except.ok [Part.inlineData "IMG" "image/png"] : Except String (List Part))) j =
          Except.ok ((fun _ : Nat => [Part.inlineData "IMG" "image/png"]) j) ∧
        extractInlineData ((fun _ : Nat => [Part.inlineData "IMG" "image/png"]) j) =
          some ((fun _ : Nat => "IMG") j, (fun _ : Nat => "image/png") j)) ∧
    (∃ imgs,
      (generate360Images "ORIG" "image/png" 7 (Except.ok (some "master"))
          (fun _ => Except.ok [Part.inlineData "IMG" "image/png"])).result = Except.ok imgs ∧
      imgs.length = 7) ∧
    (List.range 7).map (fun i => targetAngle 7 i) = [51, 103, 154, 206, 257, 309, 360] := by
  refine ⟨by decide, by decide, fun j hj => ⟨rfl, rfl⟩, ?_, ?_⟩
  · obtain ⟨imgs, h1, h2, _, _⟩ :=
      C1_frame_count_and_angles "ORIG" "image/png" 7 (some "master")
        (fun _ => Except.ok [Part.inlineData "IMG" "image/png"])
        (fun _ => [Part.inlineData "IMG" "image/png"]) (fun _ => "IMG")
        (fun _ => "image/png") (by decide) (by decide) (fun j hj => ⟨rfl, rfl⟩)
    exact ⟨imgs, h1, h2⟩
  · have h7 : ∀ i, targetAngle 7 i = (targetAngleNat 7 i : Int) := fun i =>
      targetAngle_eq_natFormula 7 i (by norm_num)
    simp only [h7]
    decide

/-- C2 counterexample: in a 4-frame all-succeeding run the `onProgress` callback
receives ten events (each frame emits both a before- and an after-event), so the
delivered currents are not the six-element sequence 0,1,2,3,4,5 the claim
states. -/
theorem C2_counterexample :
    ¬ ((generate360Images "ORIG" "image/png" 4 (Except.ok (some "master"))
          (fun _ => Except.ok [Part.inlineData "IMG" "image/png"])).progress.map
        LoadingProgress.current = [0, 1, 2, 3, 4, 5]) := by
  rw [generate360Images_ok_char "ORIG" "image/png" 4 (some "master") _
    (fun _ => [Part.inlineData "IMG" "image/png"]) (fun _ => "IMG") (fun _ => "image/png")
    (fun j hj => ⟨rfl, rfl⟩)]
  intro hcontra
  have hlen := congrArg List.length hcontra
  simp [List.range_succ] at hlen

/-- C2 amended: in a 4-frame all-succeeding run the callback receives ten events,
all with total 5: current 0, then 1 after analysis, then for each frame i a
before-event with current i+1 and an after-event with current i+2 — the currents
0,1,1,2,2,3,3,4,4,5 in order. -/
theorem C2_progress_events (origData origMime : String) (t : Option String)
    (fr : Nat → Except String (List Part)) (ps : Nat → List Part) (d m : Nat → String)
    (h : ∀ j, j < 4 →
        fr j = Except.ok (ps j) ∧ extractInlineData (ps j) = some (d j, m j)) :
    (generate360Images origData origMime 4 (Except.ok t) fr).progress.map
        LoadingProgress.current = [0, 1, 1, 2, 2, 3, 3, 4, 4, 5] ∧
    (generate360Images origData origMime 4 (Except.ok t) fr).progress.map
        LoadingProgress.total = List.replicate 10 5 := by
  rw [generate360Images_ok_char origData origMime 4 t fr ps d m h]
  constructor
  · simp [List.range_succ]
  · simp [List.range_succ, List.replicate]

/-- Witness for C2's amended theorem: a concrete all-succeeding environment. -/
theorem C2_progress_events_witness :
    (∀ j, j < 4 →
        (fun _ : Nat =>
            (Except.ok [Part.inlineData "IMG" "image/png"] : Except String (List Part))) j =
          Except.ok ((fun _ : Nat => [Part.inlineData "IMG" "image/png"]) j) ∧
        extractInlineData ((fun _ : Nat => [Part.inlineData "IMG" "image/png"]) j) =
          some ((fun _ : Nat => "IMG") j, (fun _ : Nat => "image/png") j)) ∧
    (generate360Images "ORIG" "image/png" 4 (Except.ok (some "master"))
        (fun _ => Except.ok [Part.inlineData "IMG" "image/png"])).progress.map
      LoadingProgress.current = [0, 1, 1, 2, 2, 3, 3, 4, 4, 5] :=
  ⟨fun j hj => ⟨rfl, rfl⟩,
    (C2_progress_events "ORIG" "image/png" (some "master")
      (fun _ => Except.ok [Part.inlineData "IMG" "image/png"])
      (fun _ => [Part.inlineData "IMG" "image/png"]) (fun _ => "IMG")
      (fun _ => "image/png") (fun j hj => ⟨rfl, rfl⟩)).1⟩

/-- C3 counterexample: when the analysis call returns whitespace-only text, the
run does not reject and frame calls are issued — all four frame requests go out
and the run resolves with four images (built from the empty master prompt). -/
theorem C3_counterexample :
    jsTrim "   " = "" ∧
    (generate360Images "ORIG" "image/png" 4 (Except.ok (some "   "))
        (fun _ => Except.ok [Part.inlineData "IMG" "image/png"])).frameRequests.length = 4 ∧
    ∃ imgs,
      (generate360Images "ORIG" "image/png" 4 (Except.ok (some "   "))
          (fun _ => Except.ok [Part.inlineData "IMG" "image/png"])).result = Except.ok imgs ∧
      imgs.length = 4 := by
  rw [generate360Images_ok_char "ORIG" "image/png" 4 (some "   ") _
    (fun _ => [Part.inlineData "IMG" "image/png"]) (fun _ => "IMG") (fun _ => "image/png")
    (fun j hj => ⟨rfl, rfl⟩)]
  exact ⟨by decide, by simp, _, rfl, by simp⟩

/-- C3 amended: only a thrown analysis call aborts the run (propagating the
error with no frame call issued); analysis text that is empty or whitespace-only
is folded to the empty string by `createConsistentPrompt`, and the run proceeds
to issue every frame call with the empty master prompt and resolves normally. -/
theorem C3_empty_analysis_proceeds (origData origMime : String) (n : Nat)
    (e : String) (t : Option String)
    (fr : Nat → Except String (List Part)) (ps : Nat → List Part) (d m : Nat → String)
    (hws : (t.map jsTrim).getD "" = "")
    (h : ∀ j, j < n →
        fr j = Except.ok (ps j) ∧ extractInlineData (ps j) = some (d j, m j)) :
    generate360Images origData origMime n (Except.error e) fr =
      ⟨[⟨0, n + 1, analysisStartMsg⟩], [], Except.error e⟩ ∧
    (generate360Images origData origMime n (Except.ok t) fr).frameRequests =
      (List.range n).map (fun i =>
        [Part.inlineData (chain origData d i) (chain origMime m i),
         Part.text (framePromptStr "" (chain 0 (targetAngle n) i) (targetAngle n i))]) ∧
    ∃ imgs,
      (generate360Images origData origMime n (Except.ok t) fr).result = Except.ok imgs ∧
      imgs.length = n := by
  refine ⟨by simp [generate360Images, createConsistentPrompt], ?_, ?_⟩
  · rw [generate360Images_ok_char origData origMime n t fr ps d m h, hws]
  · rw [generate360Images_ok_char origData origMime n t fr ps d m h]
    exact ⟨_, rfl, by simp⟩

/-- Witness for C3's amended theorem: whitespace-only analysis text with four
succeeding frame calls. -/
theorem C3_empty_analysis_proceeds_witness :
    ((some "   ").map jsTrim).getD "" = "" ∧
    (∀ j, j < 4 →
        (fun _ : Nat =>
            (Except.ok [Part.inlineData "IMG" "image/png"] : Except String (List Part))) j =
          Except.ok ((fun _ : Nat => [Part.inlineData "IMG" "image/png"]) j) ∧
        extractInlineData ((fun _ : Nat => [Part.inlineData "IMG" "image/png"]) j) =
          some ((fun _ : Nat => "IMG") j, (fun _ : Nat => "image/png") j)) ∧
    generate360Images "ORIG" "image/png" 4 (Except.error "analysis throw")
        (fun _ => Except.ok [Part.inlineData "IMG" "image/png"]) =
      ⟨[⟨0, 5, analysisStartMsg⟩], [], Except.error "analysis throw"⟩ :=
  ⟨by decide, fun j hj => ⟨rfl, rfl⟩,
    (C3_empty_analysis_proceeds "ORIG" "image/png" 4 "analysis throw" (some "   ")
      (fun _ => Except.ok [Part.inlineData "IMG" "image/png"])
      (fun _ => [Part.inlineData "IMG" "image/png"]) (fun _ => "IMG")
      (fun _ => "image/png") (by decide) (fun j hj => ⟨rfl, rfl⟩)).1⟩

/-- C4: each frame request carries exactly one reference image — frame i-1's
output for i ≥ 1 and the uploaded file's image for i = 0 (the `chain` values) —
and the previous angle threaded into the prompt is the previous frame's target
angle, starting from 0 before frame 0. -/
theorem C4_chained_reference (origData origMime : String) (n : Nat) (t : Option String)
    (fr : Nat → Except String (List Part)) (ps : Nat → List Part) (d m : Nat → String)
    (h : ∀ j, j < n →
        fr j = Except.ok (ps j) ∧ extractInlineData (ps j) = some (d j, m j)) :
    ∀ i, i < n →
      (generate360Images origData origMime n (Except.ok t) fr).frameRequests[i]? =
        some [Part.inlineData (chain origData d i) (chain origMime m i),
          Part.text (framePromptStr ((t.map jsTrim).getD "")
            (chain 0 (targetAngle n) i) (targetAngle n i))] := by
  intro i hi
  rw [generate360Images_ok_char origData origMime n t fr ps d m h]
  simp [List.getElem?_map, List.getElem?_range, hi]

/-- Witness for C4: the second frame (i = 1) references the first frame's output
and names its target angle 90° as previous angle. -/
theorem C4_chained_reference_witness :
    (∀ j, j < 4 →
        (fun _ : Nat =>
            (Except.ok [Part.inlineData "IMG" "image/png"] : Except String (List Part))) j =
          Except.ok ((fun _ : Nat => [Part.inlineData "IMG" "image/png"]) j) ∧
        extractInlineData ((fun _ : Nat => [Part.inlineData "IMG" "image/png"]) j) =
          some ((fun _ : Nat => "IMG") j, (fun _ : Nat => "image/png") j)) ∧
    1 < 4 ∧
    (generate360Images "ORIG" "image/png" 4 (Except.ok (some "master"))
        (fun _ => Except.ok [Part.inlineData "IMG" "image/png"])).frameRequests[1]? =
      some [Part.inlineData "IMG" "image/png",
        Part.text (framePromptStr "master" (targetAngle 4 0) (targetAngle 4 1))] :=
  ⟨fun j hj => ⟨rfl, rfl⟩, by decide,
    C4_chained_reference "ORIG" "image/png" 4 (some "master")
      (fun _ => Except.ok [Part.inlineData "IMG" "image/png"])
      (fun _ => [Part.inlineData "IMG" "image/png"]) (fun _ => "IMG")
      (fun _ => "image/png") (fun j hj => ⟨rfl, rfl⟩) 1 (by decide)⟩

/-- C5: when frames before k succeed and frame k's call fails (throws, or
returns no image part), the run rejects — it never resolves with the partial
sequence — and the rejection message wraps both the failing frame's number and
its target angle in degrees. -/
theorem C5_frame_failure_rejects (origData origMime : String) (n : Nat)
    (t : Option String) (fr : Nat → Except String (List Part))
    (ps : Nat → List Part) (d m : Nat → String) (k : Nat) (reason : String)
    (hk : k < n)
    (hsucc : ∀ j, j < k →
        fr j = Except.ok (ps j) ∧ extractInlineData (ps j) = some (d j, m j))
    (hfail : frameCallFails fr k reason) :
    (generate360Images origData origMime n (Except.ok t) fr).result =
      Except.error (frameFailMsg (k + 1) (targetAngle n k) reason) ∧
    ∀ imgs, (generate360Images origData origMime n (Except.ok t) fr).result ≠
      Except.ok imgs := by
  have hr := generate360Images_fail_result origData origMime n t fr ps d m k reason
    hk hsucc hfail
  refine ⟨hr, fun imgs hcon => ?_⟩
  rw [hr] at hcon
  cases hcon

/-- Characterization of the interpolation loop: per pair, one progress event,
the calls of `pairCalls`, and the original frame followed by `pairInserts`. -/
theorem interpLoop_char (ir : Nat → Except String (List Part)) (baseImages : List String) :
    ∀ r i,
      interpLoop ir baseImages i r =
        ((List.range r).map (fun k =>
            ⟨i + k, baseImages.length, interpolatingMsg (i + k + 1) baseImages.length⟩),
         (List.range r).flatMap (fun k => pairCalls baseImages ir (i + k)),
         (List.range r).flatMap (fun k =>
            baseImages.getD (i + k) "" :: pairInserts baseImages ir (i + k))) := by
  intro r
  induction r with
  | zero => intro i; simp [interpLoop]
  | succ r ih =>
    intro i
    simp only [interpLoop, ih (i + 1)]
    rw [List.range_succ_eq_map, List.map_cons, List.map_map, List.flatMap_cons,
      List.flatMap_map, List.flatMap_cons, List.flatMap_map]
    refine congrArg₂ _ ?_ (congrArg₂ _ ?_ ?_)
    · simp only [Nat.add_zero, List.cons.injEq, true_and]
      refine List.map_congr_left fun k _ => ?_
      have e1 : i + (k + 1) = i + 1 + k := by omega
      have e2 : i + (k + 1) + 1 = i + 1 + k + 1 := by omega
      simp only [Function.comp, Nat.succ_eq_add_one, e1, e2]
    · simp only [Nat.add_zero, pairCalls]
      refine congrArg _ (List.flatMap_congr fun k _ => ?_)
      have e1 : i + (k + 1) = i + 1 + k := by omega
      simp only [Function.comp, Nat.succ_eq_add_one, e1, pairCalls]
    · simp only [Nat.add_zero, pairInserts, List.cons_append]
      refine congrArg₂ _ rfl (congrArg₂ _ rfl (List.flatMap_congr fun k _ => ?_))
      have e1 : i + (k + 1) = i + 1 + k := by omega
      simp only [Function.comp, Nat.succ_eq_add_one, e1, pairInserts]

/-- Characterization of a full `interpolateFrames` run. -/
theorem interpolateFrames_char (baseImages : List String)
    (ir : Nat → Except String (List Part)) :
    interpolateFrames baseImages ir =
      ⟨(List.range baseImages.length).map (fun k =>
          ⟨k, baseImages.length, interpolatingMsg (k + 1) baseImages.length⟩) ++
          [⟨baseImages.length, baseImages.length, interpolationDoneMsg⟩],
        (List.range baseImages.length).flatMap (fun k => pairCalls baseImages ir k),
        Except.ok ((List.range baseImages.length).flatMap (fun k =>
          baseImages.getD k "" :: pairInserts baseImages ir k))⟩ := by
  simp only [interpolateFrames, interpLoop_char ir baseImages baseImages.length 0,
    Nat.zero_add]

theorem flatMap_eq_map_of_singleton {α β : Type} (f : α → β) :
    ∀ l : List α, l.flatMap (fun a => [f a]) = l.map f
  | [] => rfl
  | x :: xs => by
    simp only [List.flatMap_cons, List.map_cons, List.singleton_append]
    exact congrArg _ (flatMap_eq_map_of_singleton f xs)

theorem flatMap_pair_length {α β : Type} (f g : α → β) :
    ∀ l : List α, (l.flatMap (fun a => [f a, g a])).length = 2 * l.length
  | [] => rfl
  | x :: xs => by
    simp only [List.flatMap_cons, List.length_append, List.length_cons, List.length_nil,
      flatMap_pair_length f g xs]
    omega

theorem flatMap_cons_ite_length {β : Type} (x y : Nat → β) :
    ∀ M k : Nat, k < M →
      ((List.range M).flatMap (fun i =>
        x i :: (if i = k then [] else [y i]))).length = 2 * M - 1 := by
  intro M
  induction M with
  | zero => intro k hk; omega
  | succ M ih =>
    intro k hk
    rw [List.range_succ, List.flatMap_append, List.length_append]
    by_cases hkM : k = M
    · subst hkM
      have hpre : (List.range k).flatMap (fun i => x i :: (if i = k then [] else [y i])) =
          (List.range k).flatMap (fun i => [x i, y i]) := by
        refine List.flatMap_congr fun i hi => ?_
        have : i ≠ k := by
          have := List.mem_range.mp hi; omega
        simp [this]
      rw [hpre, flatMap_pair_length]
      simp [List.length_range]
      omega
    · have hklt : k < M := by omega
      rw [ih k hklt]
      have : M ≠ k := fun hc => hkM hc.symm
      simp [this]
      omega

theorem flatMap_cons_length_bounds {α β : Type} (f : α → β) (g : α → List β)
    (hg : ∀ a, (g a).length ≤ 1) :
    ∀ l : List α, l.length ≤ (l.flatMap (fun a => f a :: g a)).length ∧
      (l.flatMap (fun a => f a :: g a)).length ≤ 2 * l.length
  | [] => by simp
  | x :: xs => by
    have ih := flatMap_cons_length_bounds f g hg xs
    have hx := hg x
    simp only [List.flatMap_cons, List.length_append, List.length_cons] at ih ⊢
    omega

theorem map_sublist_flatMap_cons {α β : Type} (f : α → β) (g : α → List β) :
    ∀ l : List α, (l.map f).Sublist (l.flatMap (fun a => f a :: g a))
  | [] => List.Sublist.refl []
  | x :: xs => by
    simp only [List.map_cons, List.flatMap_cons, List.cons_append]
    exact List.Sublist.cons₂ _ ((map_sublist_flatMap_cons f g xs).trans
      (List.sublist_append_right (g x) _))

theorem map_getD_range {α : Type} (dflt : α) :
    ∀ l : List α, (List.range l.length).map (fun i => l.getD i dflt) = l
  | [] => rfl
  | x :: xs => by
    rw [List.length_cons, List.range_succ_eq_map, List.map_cons, List.map_map]
    refine congrArg₂ _ rfl ?_
    have : ((fun i => (x :: xs).getD i dflt) ∘ Nat.succ) = fun i => xs.getD i dflt := by
      funext i
      simp [Function.comp, List.getD_cons_succ]
    rw [this, map_getD_range dflt xs]

/-- The attempt for one pair inserts at most one frame. -/
theorem interpAttempt_snd_length_le (frameA frameB : String)
    (res : Except String (List Part)) : (interpAttempt frameA frameB res).2.length ≤ 1 := by
  unfold interpAttempt
  rcases parseDataUrl frameA with _ | a
  · simp
  · rcases parseDataUrl frameB with _ | b
    · simp
    · rcases res with e | parts
      · simp
      · cases hx : extractInlineData parts <;> simp [hx]

/-- C6: for an input sequence of length M ≥ 1 whose frames all parse: (a) if
every interpolation call succeeds the run resolves with the 2M-frame alternating
sequence, each pair's call referencing frame i and frame (i+1) mod M — the last
pair wrapping to index 0; (b) if exactly one call k fails the result has length
2M-1 and only pair k's inserted frame is missing; (c) in every run the result
keeps all input frames unchanged in order (a sublist) and has length between M
and 2M. -/
theorem C6_interpolation_shape (baseImages : List String)
    (ir : Nat → Except String (List Part)) (pa : Nat → ParsedDataUrl)
    (rs : Nat → List Part) (du mu : Nat → String) (k : Nat)
    (hM : 1 ≤ baseImages.length)
    (hparse : ∀ i, i < baseImages.length →
        parseDataUrl (baseImages.getD i "") = some (pa i)) :
    ((∀ i, i < baseImages.length →
          ir i = Except.ok (rs i) ∧ extractInlineData (rs i) = some (du i, mu i)) →
        (interpolateFrames baseImages ir).result =
          Except.ok ((List.range baseImages.length).flatMap (fun i =>
            [baseImages.getD i "", inlineDataToDataUrl (du i) (mu i)])) ∧
        ((List.range baseImages.length).flatMap (fun i =>
            [baseImages.getD i "", inlineDataToDataUrl (du i) (mu i)])).length =
          2 * baseImages.length ∧
        (interpolateFrames baseImages ir).calls =
          (List.range baseImages.length).map (fun i =>
            [Part.inlineData (pa i).base64Data (pa i).mimeType,
             Part.inlineData (pa ((i + 1) % baseImages.length)).base64Data
               (pa ((i + 1) % baseImages.length)).mimeType,
             Part.text interpPromptText]) ∧
        (baseImages.length - 1 + 1) % baseImages.length = 0) ∧
    (k < baseImages.length →
      (∀ i, i < baseImages.length → i ≠ k →
          ir i = Except.ok (rs i) ∧ extractInlineData (rs i) = some (du i, mu i)) →
      interpCallFails ir k →
        (interpolateFrames baseImages ir).result =
          Except.ok ((List.range baseImages.length).flatMap (fun i =>
            baseImages.getD i "" ::
              (if i = k then [] else [inlineDataToDataUrl (du i) (mu i)]))) ∧
        ((List.range baseImages.length).flatMap (fun i =>
            baseImages.getD i "" ::
              (if i = k then [] else [inlineDataToDataUrl (du i) (mu i)]))).length =
          2 * baseImages.length - 1) ∧
    (∀ imgs, (interpolateFrames baseImages ir).result = Except.ok imgs →
        baseImages.length ≤ imgs.length ∧ imgs.length ≤ 2 * baseImages.length ∧
        baseImages.Sublist imgs) := by
  have hmod : ∀ i, i < baseImages.length → (i + 1) % baseImages.length <
      baseImages.length := fun i _ => Nat.mod_lt _ (by omega)
  refine ⟨?_, ?_, ?_⟩
  · intro hsucc
    rw [interpolateFrames_char]
    refine ⟨?_, by rw [flatMap_pair_length, List.length_range], ?_,
      by rw [Nat.sub_add_cancel hM, Nat.mod_self]⟩
    · refine congrArg _ (List.flatMap_congr fun i hi => ?_)
      have hi := List.mem_range.mp hi
      simp only [pairInserts, interpAttempt, hparse i hi,
        hparse ((i + 1) % baseImages.length) (hmod i hi), (hsucc i hi).1,
        (hsucc i hi).2]
    · have : ∀ i ∈ List.range baseImages.length, pairCalls baseImages ir i =
          [[Part.inlineData (pa i).base64Data (pa i).mimeType,
            Part.inlineData (pa ((i + 1) % baseImages.length)).base64Data
              (pa ((i + 1) % baseImages.length)).mimeType,
            Part.text interpPromptText]] := by
        intro i hi
        have hi := List.mem_range.mp hi
        simp only [pairCalls, interpAttempt, hparse i hi,
          hparse ((i + 1) % baseImages.length) (hmod i hi), (hsucc i hi).1,
          (hsucc i hi).2]
      rw [List.flatMap_congr this, flatMap_eq_map_of_singleton]
  · intro hk hsucc hfail
    rw [interpolateFrames_char]
    refine ⟨?_, flatMap_cons_ite_length _ _ baseImages.length k hk⟩
    refine congrArg _ (List.flatMap_congr fun i hi => ?_)
    have hi := List.mem_range.mp hi
    by_cases hik : i = k
    · subst hik
      rcases hfail with ⟨e, he⟩ | ⟨rsk, hok, hex⟩
      · simp only [pairInserts, interpAttempt, hparse i hi,
          hparse ((i + 1) % baseImages.length) (hmod i hi), he]
        simp
      · simp only [pairInserts, interpAttempt, hparse i hi,
          hparse ((i + 1) % baseImages.length) (hmod i hi), hok, hex]
        simp
    · simp only [if_neg hik, pairInserts, interpAttempt, hparse i hi,
        hparse ((i + 1) % baseImages.length) (hmod i hi), (hsucc i hi hik).1,
        (hsucc i hi hik).2]
  · intro imgs himgs
    rw [interpolateFrames_char] at himgs
    simp only [Except.ok.injEq] at himgs
    subst himgs
    have hb := flatMap_cons_length_bounds (fun i => baseImages.getD i "")
      (fun i => pairInserts baseImages ir i)
      (fun i => interpAttempt_snd_length_le _ _ _) (List.range baseImages.length)
    rw [List.length_range] at hb
    refine ⟨hb.1, hb.2, ?_⟩
    have hs := map_sublist_flatMap_cons (fun i => baseImages.getD i "")
      (fun i => pairInserts baseImages ir i) (List.range baseImages.length)
    rw [map_getD_range] at hs
    exact hs

/-- Witness for C6: two parsable frames with all-succeeding interpolation calls
yield the four-image alternating sequence. -/
theorem C6_interpolation_shape_witness :
    1 ≤ (["data:a;b,X", "data:a;b,Y"] : List String).length ∧
    (∀ i, i < (["data:a;b,X", "data:a;b,Y"] : List String).length →
        parseDataUrl ((["data:a;b,X", "data:a;b,Y"] : List String).getD i "") =
          some ((fun i2 : Nat => if i2 = 0 then (⟨"X", "a"⟩ : ParsedDataUrl)
            else ⟨"Y", "a"⟩) i)) ∧
    (∀ i, i < (["data:a;b,X", "data:a;b,Y"] : List String).length →
        (fun _ : Nat => (Except.ok [Part.inlineData "Z" "m"] :
            Except String (List Part))) i =
          Except.ok ((fun _ : Nat => [Part.inlineData "Z" "m"]) i) ∧
        extractInlineData ((fun _ : Nat => [Part.inlineData "Z" "m"]) i) =
          some ((fun _ : Nat => "Z") i, (fun _ : Nat => "m") i)) ∧
    (interpolateFrames ["data:a;b,X", "data:a;b,Y"]
        (fun _ => Except.ok [Part.inlineData "Z" "m"])).result =
      Except.ok ["data:a;b,X", "data:m;base64,Z", "data:a;b,Y", "data:m;base64,Z"] := by
  refine ⟨by decide, ?_, fun i hi => ⟨rfl, rfl⟩, ?_⟩
  · intro i hi
    have hi2 : i < 2 := by simpa using hi
    interval_cases i <;> rfl
  · have h := (C6_interpolation_shape ["data:a;b,X", "data:a;b,Y"]
      (fun _ => Except.ok [Part.inlineData "Z" "m"])
      (fun i2 : Nat => if i2 = 0 then (⟨"X", "a"⟩ : ParsedDataUrl) else ⟨"Y", "a"⟩)
      (fun _ => [Part.inlineData "Z" "m"]) (fun _ => "Z") (fun _ => "m") 0
      (by decide) (fun i hi => by
        have hi2 : i < 2 := by simpa using hi
        interval_cases i <;> rfl)).1
      (fun i hi => ⟨rfl, rfl⟩)
    rw [h.1]
    rfl

/-- C7: `interpolateFrames` never rejects, whatever the per-pair outcomes are:
the run always resolves, with ProgressEvent(current=i, total=M) emitted before
pair i and a final ProgressEvent(current=M, total=M). -/
theorem C7_interpolation_never_rejects (baseImages : List String)
    (ir : Nat → Except String (List Part)) :
    (∃ imgs, (interpolateFrames baseImages ir).result = Except.ok imgs) ∧
    (interpolateFrames baseImages ir).progress =
      (List.range baseImages.length).map (fun i =>
        ⟨i, baseImages.length, interpolatingMsg (i + 1) baseImages.length⟩) ++
        [⟨baseImages.length, baseImages.length, interpolationDoneMsg⟩] := by
  rw [interpolateFrames_char]
  exact ⟨⟨_, rfl⟩, rfl⟩

theorem splitOnComma_of_not_mem : ∀ cs : List Char, ',' ∉ cs → splitOnComma cs = [cs]
  | [], _ => rfl
  | c :: cs, h => by
    have hc : ¬ c = ',' := fun hh => h (hh ▸ List.mem_cons_self c cs)
    rw [splitOnComma, if_neg hc,
      splitOnComma_of_not_mem cs (fun hm => h (List.mem_cons_of_mem c hm))]

theorem splitOnComma_append : ∀ xs ys : List Char, ',' ∉ xs →
    splitOnComma (xs ++ ',' :: ys) = xs :: splitOnComma ys
  | [], ys, _ => by simp [splitOnComma]
  | x :: xs, ys, h => by
    have hx : ¬ x = ',' := fun hh => h (hh ▸ List.mem_cons_self x xs)
    rw [List.cons_append, splitOnComma, if_neg hx,
      splitOnComma_append xs ys (fun hm => h (List.mem_cons_of_mem x hm))]

theorem captureAfterColon_append : ∀ mc rest : List Char, ';' ∉ mc →
    (∀ c ∈ mc, isLineTerminator c = false) →
    captureAfterColon (mc ++ ';' :: rest) = some mc
  | [], rest, _, _ => by simp [captureAfterColon]
  | c :: mc, rest, h1, h2 => by
    have hc : ¬ c = ';' := fun hh => h1 (hh ▸ List.mem_cons_self c mc)
    have hlt : ¬ (isLineTerminator c = true) := by
      rw [h2 c (List.mem_cons_self c mc)]; simp
    rw [List.cons_append, captureAfterColon, if_neg hc, if_neg hlt,
      captureAfterColon_append mc rest (fun hm => h1 (List.mem_cons_of_mem c hm))
        (fun c2 hm => h2 c2 (List.mem_cons_of_mem c hm))]
    rfl

theorem execMimeRegex_append : ∀ pre mc rest : List Char, ':' ∉ pre → ';' ∉ mc →
    (∀ c ∈ mc, isLineTerminator c = false) →
    execMimeRegex (pre ++ (':' :: (mc ++ ';' :: rest))) = some mc
  | [], mc, rest, _, h2, h3 => by
    rw [List.nil_append]
    rw [show execMimeRegex (':' :: (mc ++ ';' :: rest)) =
        (match captureAfterColon (mc ++ ';' :: rest) with
          | some cap => some cap
          | none => execMimeRegex (mc ++ ';' :: rest)) from by
      simp [execMimeRegex]]
    rw [captureAfterColon_append mc rest h2 h3]
  | p :: pre, mc, rest, h1, h2, h3 => by
    have hp : ¬ p = ':' := fun hh => h1 (hh ▸ List.mem_cons_self p pre)
    rw [List.cons_append]
    rw [show execMimeRegex (p :: (pre ++ (':' :: (mc ++ ';' :: rest)))) =
        execMimeRegex (pre ++ (':' :: (mc ++ ';' :: rest))) from by
      simp [execMimeRegex, hp]]
    exact execMimeRegex_append pre mc rest (fun hm => h1 (List.mem_cons_of_mem p hm)) h2 h3

/-- Parsing a well-formed data URL `data:<mime>;base64,<payload>` recovers the
payload and the MIME type, provided the MIME type is free of commas, semicolons
and line terminators and the payload is nonempty and comma-free. -/
theorem parseDataUrl_wellFormed (mime : String) (payloadChars : List Char)
    (hm1 : ',' ∉ mime.toList) (hm2 : ';' ∉ mime.toList)
    (hm3 : ∀ c ∈ mime.toList, isLineTerminator c = false)
    (hp1 : ',' ∉ payloadChars) (hp2 : payloadChars ≠ []) :
    parseDataUrl ("data:" ++ mime ++ ";base64," ++ String.mk payloadChars) =
      some ⟨String.mk payloadChars, mime⟩ := by
  have htl : ("data:" ++ mime ++ ";base64," ++ String.mk payloadChars).toList =
      (('d' :: 'a' :: 't' :: 'a' :: ':' :: mime.toList ++
        (';' :: 'b' :: 'a' :: 's' :: 'e' :: '6' :: '4' :: [])) ++ ',' :: payloadChars) := by
    show ("data:" ++ mime ++ ";base64," ++ String.mk payloadChars).data = _
    rw [String.data_append, String.data_append, String.data_append]
    simp
  have hxs : ',' ∉ ('d' :: 'a' :: 't' :: 'a' :: ':' :: mime.toList ++
      (';' :: 'b' :: 'a' :: 's' :: 'e' :: '6' :: '4' :: [])) := by
    intro hm
    simp at hm
    exact hm1 hm
  unfold parseDataUrl
  rw [htl, splitOnComma_append _ _ hxs, splitOnComma_of_not_mem payloadChars hp1]
  have hregex : execMimeRegex ('d' :: 'a' :: 't' :: 'a' :: ':' :: mime.toList ++
      (';' :: 'b' :: 'a' :: 's' :: 'e' :: '6' :: '4' :: [])) = some mime.toList := by
    have h := execMimeRegex_append ['d', 'a', 't', 'a'] mime.toList
      ('b' :: 'a' :: 's' :: 'e' :: '6' :: '4' :: []) (by decide) hm2 hm3
    simpa using h
  simp only [List.headD, List.drop, hregex]
  rw [if_neg hp2]
  rfl

/-- C8 counterexample: the input "a:b;,,c" has a comma, a header matching the
`:<type>;` pattern, and a nonempty payload after its first comma — none of the
claim's failure conditions — yet `parseDataUrl` throws, because the code splits
on every comma and the segment between the first two commas is empty. -/
theorem C8_counterexample :
    parseDataUrl "a:b;,,c" = none ∧
    ¬ specNoComma "a:b;,,c" ∧
    (execMimeRegex (specHeader "a:b;,,c")).isSome = true ∧
    specPayloadAfterFirstComma "a:b;,,c" ≠ [] := by decide

/-- C8 amended: `parseDataUrl` throws exactly when the `:<type>;` regex fails on
the segment before the first comma or the segment between the first and second
commas (the code splits on every comma, not only the first) is missing or
empty; any input without a comma therefore throws, and every well-formed
`data:<mime>;base64,<payload>` URL (MIME free of commas, semicolons and line
terminators; payload nonempty and comma-free) parses to its payload and MIME
type. -/
theorem C8_parse_characterization :
    (∀ s : String,
      (parseDataUrl s = none ↔
        execMimeRegex ((splitOnComma s.toList).headD []) = none ∨
          ((splitOnComma s.toList).drop 1).headD [] = [])) ∧
    (∀ s : String, specNoComma s → parseDataUrl s = none) ∧
    (∀ (mime : String) (payloadChars : List Char), ',' ∉ mime.toList →
      ';' ∉ mime.toList → (∀ c ∈ mime.toList, isLineTerminator c = false) →
      ',' ∉ payloadChars → payloadChars ≠ [] →
      parseDataUrl ("data:" ++ mime ++ ";base64," ++ String.mk payloadChars) =
        some ⟨String.mk payloadChars, mime⟩) := by
  refine ⟨?_, ?_, parseDataUrl_wellFormed⟩
  · intro s
    show (match execMimeRegex ((splitOnComma s.toList).headD []) with
      | none => (none : Option ParsedDataUrl)
      | some mime =>
        if ((splitOnComma s.toList).drop 1).headD [] = [] then none
        else some (⟨String.mk (((splitOnComma s.toList).drop 1).headD []),
          String.mk mime⟩ : ParsedDataUrl)) = none ↔
      execMimeRegex ((splitOnComma s.toList).headD []) = none ∨
        ((splitOnComma s.toList).drop 1).headD [] = []
    cases hx : execMimeRegex ((splitOnComma s.toList).headD []) with
    | none => simp
    | some mm =>
      by_cases hb : ((splitOnComma s.toList).drop 1).headD [] = []
      · simp [hb]
      · simp [hb]
  · intro s hs
    show (match execMimeRegex ((splitOnComma s.toList).headD []) with
      | none => (none : Option ParsedDataUrl)
      | some mime =>
        if ((splitOnComma s.toList).drop 1).headD [] = [] then none
        else some (⟨String.mk (((splitOnComma s.toList).drop 1).headD []),
          String.mk mime⟩ : ParsedDataUrl)) = none
    rw [splitOnComma_of_not_mem s.toList hs]
    cases hx : execMimeRegex ([s.toList].headD []) <;> simp

/-- Witness for C8's amended theorem: a throwing no-comma input, a throwing
empty-second-segment input, and a parsing well-formed URL. -/
theorem C8_parse_characterization_witness :
    specNoComma "nocomma" ∧ parseDataUrl "nocomma" = none ∧
    (parseDataUrl "a:b;,,c" = none ↔
      execMimeRegex ((splitOnComma "a:b;,,c".toList).headD []) = none ∨
        ((splitOnComma "a:b;,,c".toList).drop 1).headD [] = []) ∧
    (',' ∉ "image/png".toList ∧ ';' ∉ "image/png".toList ∧
      (∀ c ∈ "image/png".toList, isLineTerminator c = false) ∧
      ',' ∉ ['Q', 'U', 'J', 'D'] ∧ (['Q', 'U', 'J', 'D'] : List Char) ≠ []) ∧
    parseDataUrl ("data:" ++ "image/png" ++ ";base64," ++ String.mk ['Q', 'U', 'J', 'D']) =
      some ⟨String.mk ['Q', 'U', 'J', 'D'], "image/png"⟩ :=
  ⟨by decide, C8_parse_characterization.2.1 "nocomma" (by decide),
    C8_parse_characterization.1 "a:b;,,c",
    ⟨by decide, by decide, by decide, by decide, by decide⟩,
    C8_parse_characterization.2.2 "image/png" ['Q', 'U', 'J', 'D'] (by decide) (by decide)
      (by decide) (by decide) (by decide)⟩

theorem base64Alphabet_length : base64Alphabet.length = 64 := by decide

theorem b64Char_mem (v : Nat) : b64Char v ∈ base64Alphabet := by
  by_cases hv : v < 64
  · exact (by decide : ∀ v2, v2 < 64 → b64Char v2 ∈ base64Alphabet) v hv
  · unfold b64Char
    rw [List.getD_eq_default]
    · decide
    · rw [base64Alphabet_length]; omega

theorem b64Char_ne_pad (v : Nat) : b64Char v ≠ '=' := fun h =>
  (by decide : '=' ∉ base64Alphabet) (h ▸ b64Char_mem v)

theorem b64Char_ne_comma (v : Nat) : b64Char v ≠ ',' := fun h =>
  (by decide : ',' ∉ base64Alphabet) (h ▸ b64Char_mem v)

theorem base64Encode_mem : ∀ bs : List Nat, ∀ c ∈ base64Encode bs,
    c ∈ base64Alphabet ∨ c = '='
  | [], c, hc => absurd hc (by simp [base64Encode])
  | [b1], c, hc => by
    simp only [base64Encode, List.mem_cons, List.not_mem_nil, or_false] at hc
    rcases hc with rfl | rfl | rfl | rfl
    · exact Or.inl (b64Char_mem _)
    · exact Or.inl (b64Char_mem _)
    · exact Or.inr rfl
    · exact Or.inr rfl
  | [b1, b2], c, hc => by
    simp only [base64Encode, List.mem_cons, List.not_mem_nil, or_false] at hc
    rcases hc with rfl | rfl | rfl | rfl
    · exact Or.inl (b64Char_mem _)
    · exact Or.inl (b64Char_mem _)
    · exact Or.inl (b64Char_mem _)
    · exact Or.inr rfl
  | b1 :: b2 :: b3 :: rest, c, hc => by
    simp only [base64Encode, List.mem_cons] at hc
    rcases hc with rfl | rfl | rfl | rfl | hc
    · exact Or.inl (b64Char_mem _)
    · exact Or.inl (b64Char_mem _)
    · exact Or.inl (b64Char_mem _)
    · exact Or.inl (b64Char_mem _)
    · exact base64Encode_mem rest c hc

theorem base64Encode_no_comma (bs : List Nat) : ',' ∉ base64Encode bs := by
  intro hm
  rcases base64Encode_mem bs ',' hm with h | h
  · exact (by decide : ',' ∉ base64Alphabet) h
  · exact absurd h (by decide)

theorem base64Encode_ne_nil : ∀ bs : List Nat, bs ≠ [] → base64Encode bs ≠ []
  | [], h => absurd rfl h
  | [b1], _ => by simp [base64Encode]
  | [b1, b2], _ => by simp [base64Encode]
  | b1 :: b2 :: b3 :: rest, _ => by simp [base64Encode]

theorem base64Encode_length_mod : ∀ bs : List Nat, (base64Encode bs).length % 4 = 0
  | [] => rfl
  | [b1] => by simp [base64Encode]
  | [b1, b2] => by simp [base64Encode]
  | b1 :: b2 :: b3 :: rest => by
    have ih := base64Encode_length_mod rest
    simp only [base64Encode, List.length_cons]
    omega

theorem dropPadRev_append2 : ∀ xs tail : List Char, 2 ≤ xs.length →
    dropPadRev (xs ++ tail) = dropPadRev xs ++ tail
  | [], _, h => by simp at h
  | [x], _, h => by simp at h
  | x :: y :: l, tail, _ => by
    by_cases hx : x = '='
    · subst hx
      by_cases hy : y = '='
      · subst hy; simp [dropPadRev]
      · simp [dropPadRev, hy]
    · simp [dropPadRev, hx]

theorem stripBase64Padding_encode :
    ∀ bs : List Nat, stripBase64Padding (base64Encode bs) = b64UnpaddedEncode bs
  | [] => rfl
  | [b1] => by
    simp [stripBase64Padding, base64Encode, b64UnpaddedEncode, dropPadRev]
  | [b1, b2] => by
    simp [stripBase64Padding, base64Encode, b64UnpaddedEncode, dropPadRev,
      b64Char_ne_pad]
  | b1 :: b2 :: b3 :: rest => by
    rcases List.eq_nil_or_concat rest with hrest | _
    · subst hrest
      simp [stripBase64Padding, base64Encode, b64UnpaddedEncode, dropPadRev,
        b64Char_ne_pad]
    · have hne : base64Encode rest ≠ [] := by
        apply base64Encode_ne_nil
        rintro rfl
        simp_all
      have hlen : 2 ≤ (base64Encode rest).reverse.length := by
        have h1 : 0 < (base64Encode rest).length := List.length_pos.mpr hne
        have h4 := base64Encode_length_mod rest
        rw [List.length_reverse]
        omega
      have hchunk : base64Encode (b1 :: b2 :: b3 :: rest) =
          [b64Char (b1 / 4), b64Char (b1 % 4 * 16 + b2 / 16),
            b64Char (b2 % 16 * 4 + b3 / 64), b64Char (b3 % 64)] ++ base64Encode rest := rfl
      rw [stripBase64Padding, hchunk, List.reverse_append,
        dropPadRev_append2 _ _ hlen, List.reverse_append]
      have hfix : (dropPadRev (base64Encode rest).reverse).reverse =
          stripBase64Padding (base64Encode rest) := rfl
      rw [hfix, stripBase64Padding_encode rest]
      rfl

theorem b64Index_b64Char : ∀ i, i < 64 → b64Index (b64Char i) = some i := by decide

theorem b64Values_unpadded : ∀ bs : List Nat, (∀ b ∈ bs, b < 256) →
    b64Values (b64UnpaddedEncode bs) = some (toSixBits bs)
  | [], _ => rfl
  | [b1], h => by
    have hb1 : b1 < 256 := h b1 (by simp)
    simp [b64UnpaddedEncode, toSixBits, b64Values,
      b64Index_b64Char (b1 / 4) (by omega),
      b64Index_b64Char (b1 % 4 * 16) (by omega)]
  | [b1, b2], h => by
    have hb1 : b1 < 256 := h b1 (by simp)
    have hb2 : b2 < 256 := h b2 (by simp)
    simp [b64UnpaddedEncode, toSixBits, b64Values,
      b64Index_b64Char (b1 / 4) (by omega),
      b64Index_b64Char (b1 % 4 * 16 + b2 / 16) (by omega),
      b64Index_b64Char (b2 % 16 * 4) (by omega)]
  | b1 :: b2 :: b3 :: rest, h => by
    have hb1 : b1 < 256 := h b1 (by simp)
    have hb2 : b2 < 256 := h b2 (by simp)
    have hb3 : b3 < 256 := h b3 (by simp)
    have ih := b64Values_unpadded rest (fun b hb => h b (by simp [hb]))
    simp [b64UnpaddedEncode, toSixBits, b64Values,
      b64Index_b64Char (b1 / 4) (by omega),
      b64Index_b64Char (b1 % 4 * 16 + b2 / 16) (by omega),
      b64Index_b64Char (b2 % 16 * 4 + b3 / 64) (by omega),
      b64Index_b64Char (b3 % 64) (by omega), ih]

theorem b64DecodeQuads_toSixBits : ∀ bs : List Nat, (∀ b ∈ bs, b < 256) →
    b64DecodeQuads (toSixBits bs) = bs
  | [], _ => rfl
  | [b1], h => by
    have hb1 : b1 < 256 := h b1 (by simp)
    simp only [toSixBits, b64DecodeQuads, List.cons.injEq, and_true]
    omega
  | [b1, b2], h => by
    have hb1 : b1 < 256 := h b1 (by simp)
    have hb2 : b2 < 256 := h b2 (by simp)
    simp only [toSixBits, b64DecodeQuads, List.cons.injEq, and_true]
    constructor
    · omega
    · omega
  | b1 :: b2 :: b3 :: rest, h => by
    have hb1 : b1 < 256 := h b1 (by simp)
    have hb2 : b2 < 256 := h b2 (by simp)
    have hb3 : b3 < 256 := h b3 (by simp)
    have ih := b64DecodeQuads_toSixBits rest (fun b hb => h b (by simp [hb]))
    simp only [toSixBits, b64DecodeQuads, List.cons.injEq]
    refine ⟨by omega, by omega, by omega, ih⟩

theorem b64UnpaddedEncode_length_mod : ∀ bs : List Nat,
    (b64UnpaddedEncode bs).length % 4 ≠ 1
  | [] => by simp [b64UnpaddedEncode]
  | [b1] => by simp [b64UnpaddedEncode]
  | [b1, b2] => by simp [b64UnpaddedEncode]
  | b1 :: b2 :: b3 :: rest => by
    have ih := b64UnpaddedEncode_length_mod rest
    simp only [b64UnpaddedEncode, List.length_cons]
    omega

/-- Decoding with the platform `atob` model inverts base64 encoding on every
byte sequence. -/
theorem atobBytes_base64Encode (bs : List Nat) (h : ∀ b ∈ bs, b < 256) :
    atobBytes (base64Encode bs) = some bs := by
  unfold atobBytes
  simp only [base64Encode_length_mod bs, if_pos, stripBase64Padding_encode bs,
    if_neg (b64UnpaddedEncode_length_mod bs), b64Values_unpadded bs h]
  simp [b64DecodeQuads_toSixBits bs h]

/-- C9 counterexample: the empty payload encodes to `data:image/png;base64,`
whose payload segment is empty, so `dataUrlToFile` throws instead of returning
an empty file with the same MIME type. -/
theorem C9_counterexample :
    dataUrlToFile (toDataUrl [] "image/png") "file.png" = none := by decide

/-- C9 amended: the data-URL round trip holds for every nonempty byte payload
and every MIME type free of commas, semicolons and line terminators:
`dataUrlToFile (toDataUrl payload mime)` yields a file with byte-for-byte
identical content and an identical MIME type. -/
theorem C9_roundtrip (payload : List Nat) (mime filename : String)
    (hbytes : ∀ b ∈ payload, b < 256) (hne : payload ≠ [])
    (hm1 : ',' ∉ mime.toList) (hm2 : ';' ∉ mime.toList)
    (hm3 : ∀ c ∈ mime.toList, isLineTerminator c = false) :
    dataUrlToFile (toDataUrl payload mime) filename =
      some ⟨payload, filename, mime⟩ := by
  unfold toDataUrl dataUrlToFile inlineDataToDataUrl
  have hparse := parseDataUrl_wellFormed mime (base64Encode payload) hm1 hm2 hm3
    (base64Encode_no_comma payload) (base64Encode_ne_nil payload hne)
  rw [hparse]
  simp [String.toList, atobBytes_base64Encode payload hbytes]

/-- Witness for C9's amended theorem: the two-byte payload 72, 105 with MIME
type image/png round-trips exactly. -/
theorem C9_roundtrip_witness :
    (∀ b ∈ ([72, 105] : List Nat), b < 256) ∧ ([72, 105] : List Nat) ≠ [] ∧
    ',' ∉ "image/png".toList ∧ ';' ∉ "image/png".toList ∧
    (∀ c ∈ "image/png".toList, isLineTerminator c = false) ∧
    dataUrlToFile (toDataUrl [72, 105] "image/png") "file.png" =
      some ⟨[72, 105], "file.png", "image/png"⟩ :=
  ⟨by decide, by decide, by decide, by decide, by decide,
    C9_roundtrip [72, 105] "image/png" "file.png" (by decide) (by decide) (by decide)
      (by decide) (by decide)⟩

/-- C10: on the empty input sequence `interpolateFrames` issues no model call,
resolves with the empty sequence, and emits exactly one progress event, with
current = 0 and total = 0 — an event violating the spec's declared ProgressEvent
shape (total > 0). -/
theorem C10_empty_input_progress (ir : Nat → Except String (List Part)) :
    interpolateFrames [] ir =
      ⟨[⟨0, 0, interpolationDoneMsg⟩], [], Except.ok []⟩ ∧
    ¬ specProgressEventShape ⟨0, 0, interpolationDoneMsg⟩ :=
  ⟨rfl, by decide⟩

/-- Witness for C5: frames 0 and 1 succeed, frame 2's call throws "boom" in a
4-frame run; the run rejects with the message naming frame 3 and 270 degrees. -/
theorem C5_frame_failure_rejects_witness :
    2 < 4 ∧
    (∀ j, j < 2 →
        (fun j2 : Nat =>
            if j2 < 2 then (Except.ok [Part.inlineData "IMG" "image/png"] :
              Except String (List Part))
            else Except.error "boom") j =
          Except.ok ((fun _ : Nat => [Part.inlineData "IMG" "image/png"]) j) ∧
        extractInlineData ((fun _ : Nat => [Part.inlineData "IMG" "image/png"]) j) =
          some ((fun _ : Nat => "IMG") j, (fun _ : Nat => "image/png") j)) ∧
    frameCallFails
      (fun j2 : Nat =>
        if j2 < 2 then (Except.ok [Part.inlineData "IMG" "image/png"] :
          Except String (List Part))
        else Except.error "boom") 2 "boom" ∧
    (generate360Images "ORIG" "image/png" 4 (Except.ok (some "master"))
        (fun j2 : Nat =>
          if j2 < 2 then (Except.ok [Part.inlineData "IMG" "image/png"] :
            Except String (List Part))
          else Except.error "boom")).result =
      Except.error (frameFailMsg 3 (targetAngle 4 2) "boom") :=
  ⟨by decide,
    fun j hj => by
      have hjlt : j < 2 := hj
      refine ⟨?_, rfl⟩
      simp [hjlt],
    Or.inl (by simp [frameCallFails]),
    (C5_frame_failure_rejects "ORIG" "image/png" 4 (some "master") _
      (fun _ => [Part.inlineData "IMG" "image/png"]) (fun _ => "IMG")
      (fun _ => "image/png") 2 "boom" (by decide)
      (fun j hj => ⟨by simp [hj], rfl⟩) (Or.inl (by simp))).1⟩

end MagicSpin
